import Mathlib

/-!
Verification development for the screeps-api-mcp server.

The definitions below are a shallow embedding of the TypeScript sources
(`src/screeps-api.ts`, `src/validation.ts`, `src/types.ts`, `src/tools.ts`).
Pure functions become Lean functions; the mutable `ScreepsAPI` instance state
becomes an explicit `ApiState` record threaded through the operations; the
`RateLimiter`'s `Map<string, number[]>` becomes an explicit finite-map state;
network and websocket effects are represented by explicit request plans,
event scripts and sent-frame traces.  JavaScript numbers are modelled as
`Nat`/`Int` (timestamps are `Date.now()` millisecond integers; no claim
exercises non-integer arithmetic).
-/

namespace Screeps

/-- JS `arr.slice(-n)` for a nonnegative `n`: keeps the last `n` elements.
`slice(-0)` is `slice(0)`, i.e. a copy of the whole array. -/
def jsSliceLast (n : Nat) (l : List α) : List α :=
  if n = 0 then l else l.drop (l.length - n)

/-- The console message kind enum from `types.ts`
(`z.enum(['log', 'result', 'error', 'highlight'])`). -/
inductive MsgType where
  | log
  | result
  | error
  | highlight
deriving DecidableEq, Repr

/-- `ConsoleMessage` from `types.ts`: `{line, shard, timestamp?, type?}`.
`timestamp` and `type` are optional in the TS schema, hence `Option`. -/
structure ConsoleMessage where
  line : String
  shard : String
  timestamp : Option Nat
  type : Option MsgType
deriving DecidableEq, Repr

/-! ### HTML tag stripping

`ScreepsAPI.stripHtmlTags` is `html.replace(/<[^>]*>/g, '')`: every
occurrence of a `<`, followed by any characters other than `>`, followed by
a `>`, is removed (leftmost, non-overlapping).  Equivalently: on meeting a
`<`, if some `>` occurs later, everything up to and including the first
such `>` is deleted and scanning resumes after it; a `<` with no later `>`
can start no match, and since then no later character can either, the rest
of the string is kept verbatim. -/

/-- Drop characters up to and including the first `'>'`; `none` if there is
no `'>'` at all. -/
def dropThroughGt : List Char → Option (List Char)
  | [] => none
  | c :: rest => if c = '>' then some rest else dropThroughGt rest

/-- Fuelled scanner for the `/<[^>]*>/g` replacement.  The fuel only needs
to dominate the length of the input; each recursive call consumes at least
one character. -/
def stripHtmlAux : Nat → List Char → List Char
  | 0, l => l
  | _ + 1, [] => []
  | fuel + 1, c :: rest =>
    if c = '<' then
      match dropThroughGt rest with
      | some rest2 => stripHtmlAux fuel rest2
      | none => c :: rest
    else c :: stripHtmlAux fuel rest

/-- Model of `ScreepsAPI.stripHtmlTags`. -/
def stripHtmlTags (html : String) : String :=
  ⟨stripHtmlAux html.toList.length html.toList⟩

/-! ### Console buffer admission (`ScreepsAPI.processConsoleMessages`) -/

/-- One streamed console line about to be admitted, together with the shard
the frame carried and the `Date.now()` value at admission time. -/
structure IncomingLine where
  line : String
  type : MsgType
  shard : String
  now : Nat
deriving DecidableEq, Repr

/-- The `ConsoleMessage` entry built by the `pushMessage` closure inside
`processConsoleMessages`: the line is HTML-stripped, the timestamp is
`Date.now()` and the type is the classified kind. -/
def mkEntry (m : IncomingLine) : ConsoleMessage :=
  { line := stripHtmlTags m.line
    shard := m.shard
    timestamp := some m.now
    type := some m.type }

/-- The `pushMessage` closure of `ScreepsAPI.processConsoleMessages`:
append the entry, then if the buffer length exceeds `maxConsoleBuffer`
trim it with `slice(-maxConsoleBuffer)`. -/
def pushMessage (maxBuf : Nat) (buf : List ConsoleMessage) (m : IncomingLine) :
    List ConsoleMessage :=
  let entry := mkEntry m
  let buf2 := buf ++ [entry]
  if maxBuf < buf2.length then jsSliceLast maxBuf buf2 else buf2

/-- Admission of a sequence of classified console lines, each via
`pushMessage` (the order in which `processConsoleMessages` admits them). -/
def admitMessages (maxBuf : Nat) (buf : List ConsoleMessage)
    (msgs : List IncomingLine) : List ConsoleMessage :=
  msgs.foldl (pushMessage maxBuf) buf

/-! ### Buffered reads (`ScreepsAPI.getBufferedConsoleMessages`) -/

/-- The filter step of `getBufferedConsoleMessages`: when `since` is a
number, keep only messages with `(msg.timestamp || 0) > since`. -/
def eligibleMessages (buf : List ConsoleMessage) (since : Option Nat) :
    List ConsoleMessage :=
  match since with
  | some s => buf.filter (fun msg => s < msg.timestamp.getD 0)
  | none => buf

/-- Model of `ScreepsAPI.getBufferedConsoleMessages(limit = 50, since?)`:
filter by `since`, then `slice(-limit)` when `limit > 0`.  The final
`messages.map(msg => ({...msg}))` copy is the identity on the immutable
message values and is therefore elided. -/
def getBufferedConsoleMessages (buf : List ConsoleMessage) (limit : Int)
    (since : Option Nat) : List ConsoleMessage :=
  let messages := eligibleMessages buf since
  if 0 < limit then jsSliceLast limit.toNat messages else messages

/-! ### Rate limiter (`RateLimiter` in `validation.ts`)

The TS class holds `requests: Map<string, number[]>`.  A JS `Map` with
string keys is modelled as the partial function `String → Option (List Int)`
(`none` = key absent); `Map.get/set/has/delete` translate to function
application and pointwise update.  Timestamps are `Date.now()` values,
modelled as `Int` so that `now - windowMs` never truncates. -/

/-- State of a `RateLimiter` instance: the constructor arguments
`windowMs` and `maxRequests` plus the `requests` map. -/
structure RateLimiter where
  windowMs : Int
  maxRequests : Nat
  requests : String → Option (List Int)

/-- The `if (!this.requests.has(identifier)) this.requests.set(identifier, [])`
step at the top of `allowRequest`. -/
def ensureKey (m : String → Option (List Int)) (k : String) :
    String → Option (List Int) :=
  if (m k).isSome then m else fun k2 => if k2 = k then some [] else m k2

/-- The `validRequests` local of `RateLimiter.allowRequest`: the stored
timestamps for `identifier` with entries at or before `now - windowMs`
dropped (`requestTimes.filter(time => time > windowStart)`). -/
def validRequestsOf (rl : RateLimiter) (identifier : String) (now : Int) :
    List Int :=
  (((ensureKey rl.requests identifier) identifier).getD []).filter
    (fun time => now - rl.windowMs < time)

/-- Model of `RateLimiter.allowRequest`: reject without recording anything
when the in-window count has reached `maxRequests`; otherwise store the
pruned list with `now` appended and admit. -/
def allowRequest (rl : RateLimiter) (identifier : String) (now : Int) :
    Bool × RateLimiter :=
  if rl.maxRequests ≤ (validRequestsOf rl identifier now).length then
    (false, { rl with requests := ensureKey rl.requests identifier })
  else
    (true, { rl with requests := fun k =>
        if k = identifier then some (validRequestsOf rl identifier now ++ [now])
        else ensureKey rl.requests identifier k })

/-- Model of `RateLimiter.cleanup`: for every key, prune timestamps outside
the window at `now`; keys whose pruned list is empty are deleted.  This is
the pointwise effect of the `for (const [key, requestTimes] of
this.requests.entries())` loop. -/
def cleanup (rl : RateLimiter) (now : Int) : RateLimiter :=
  { rl with requests := fun k =>
      match rl.requests k with
      | none => none
      | some times =>
        let valid := times.filter (fun time => now - rl.windowMs < time)
        if valid.length = 0 then none else some valid }

/-- One step of a usage trace of a `RateLimiter` instance: either a call to
`allowRequest` for some key or a call to `cleanup`, together with the
`Date.now()` value at which it happens. -/
inductive LimiterOp where
  | allow (identifier : String) (t : Int)
  | cleanupAt (t : Int)
deriving DecidableEq, Repr

/-- The wall-clock time of a trace step. -/
def opTime : LimiterOp → Int
  | .allow _ t => t
  | .cleanupAt t => t

/-- Run a trace against a limiter state, collecting the boolean results of
the `allowRequest` calls. -/
def runOps (rl : RateLimiter) : List LimiterOp → List Bool
  | [] => []
  | .allow k t :: rest =>
    let r := allowRequest rl k t
    r.1 :: runOps r.2 rest
  | .cleanupAt t :: rest => runOps (cleanup rl t) rest

/-- Remove the `cleanup` calls from a trace. -/
def dropCleanups : List LimiterOp → List LimiterOp
  | [] => []
  | .allow k t :: rest => .allow k t :: dropCleanups rest
  | .cleanupAt _ :: rest => dropCleanups rest

/-! ### JSON values

A model of the JSON data JavaScript's `JSON.parse`/`JSON.stringify` work
with.  Numbers are kept exactly as a decimal mantissa/exponent pair
(`value = mantissa * 10 ^ exponent`); IEEE-754 rounding is not modelled —
no claim exercises non-integer numbers. -/

inductive Json where
  | null
  | bool (b : Bool)
  | num (mantissa : Int) (exponent : Int)
  | str (s : String)
  | arr (elems : List Json)
  | obj (fields : List (String × Json))

/-- Property access `j.name` on a parsed JSON value: defined (JS: not
`undefined`) only on objects.  `JSON.parse` lets a later duplicate key win,
so the last matching field is returned. -/
def jsonGetField : Json → String → Option Json
  | .obj fields, name => (fields.reverse.find? (fun p => p.1 = name)).map (·.2)
  | _, _ => none

/-- JS truthiness of a parsed JSON value (`undefined` is handled at the
`Option` level by the callers). -/
def jsTruthy : Json → Bool
  | .null => false
  | .bool b => b
  | .num m _ => m ≠ 0
  | .str s => s ≠ ""
  | .arr _ => true
  | .obj _ => true

/-- The `isArrayOfStrings` helper of `screeps-api.ts`:
`Array.isArray(value) && value.every(item => typeof item === 'string')`. -/
def isArrayOfStrings : Json → Bool
  | .arr elems => elems.all (fun j => match j with
      | .str _ => true
      | _ => false)
  | _ => false

/-- The strings of a JSON array of strings (in order). -/
def jsonStringItems : Json → List String
  | .arr elems => elems.filterMap (fun j => match j with
      | .str s => some s
      | _ => none)
  | _ => []

/-! ### Bytes, UTF-8 and base64

`Buffer` contents are modelled as `List Nat` with each entry `< 256`. -/

/-- UTF-8 encoding of a single character (standard 1-4 byte encoding, as
produced by `Buffer.from(string)`). -/
def charUtf8 (c : Char) : List Nat :=
  let n := c.toNat
  if n < 0x80 then [n]
  else if n < 0x800 then [0xC0 + n / 64, 0x80 + n % 64]
  else if n < 0x10000 then [0xE0 + n / 4096, 0x80 + n / 64 % 64, 0x80 + n % 64]
  else [0xF0 + n / 262144, 0x80 + n / 4096 % 64, 0x80 + n / 64 % 64, 0x80 + n % 64]

/-- UTF-8 encoding of a string (`Buffer.from(s)`). -/
def utf8Encode (s : String) : List Nat :=
  s.toList.flatMap charUtf8

/-- UTF-8 decoding of a byte sequence, as done by `buffer.toString()`:
well-formed sequences decode to their code point, malformed bytes become
U+FFFD replacement characters. -/
def utf8Decode : Nat → List Nat → List Char
  | 0, _ => []
  | _ + 1, [] => []
  | fuel + 1, b :: rest =>
    if b < 0x80 then Char.ofNat b :: utf8Decode fuel rest
    else if 0xC2 ≤ b ∧ b ≤ 0xDF then
      match rest with
      | b1 :: rest2 =>
        if 0x80 ≤ b1 ∧ b1 ≤ 0xBF then
          Char.ofNat ((b - 0xC0) * 64 + (b1 - 0x80)) :: utf8Decode fuel rest2
        else Char.ofNat 0xFFFD :: utf8Decode fuel (b1 :: rest2)
      | [] => [Char.ofNat 0xFFFD]
    else if 0xE0 ≤ b ∧ b ≤ 0xEF then
      match rest with
      | b1 :: b2 :: rest2 =>
        if (0x80 ≤ b1 ∧ b1 ≤ 0xBF) ∧ (0x80 ≤ b2 ∧ b2 ≤ 0xBF) then
          let n := (b - 0xE0) * 4096 + (b1 - 0x80) * 64 + (b2 - 0x80)
          if n < 0x800 ∨ (0xD800 ≤ n ∧ n ≤ 0xDFFF) then
            Char.ofNat 0xFFFD :: utf8Decode fuel rest2
          else Char.ofNat n :: utf8Decode fuel rest2
        else Char.ofNat 0xFFFD :: utf8Decode fuel (b1 :: b2 :: rest2)
      | _ => [Char.ofNat 0xFFFD]
    else if 0xF0 ≤ b ∧ b ≤ 0xF4 then
      match rest with
      | b1 :: b2 :: b3 :: rest2 =>
        if (0x80 ≤ b1 ∧ b1 ≤ 0xBF) ∧ (0x80 ≤ b2 ∧ b2 ≤ 0xBF) ∧
            (0x80 ≤ b3 ∧ b3 ≤ 0xBF) then
          let n := (b - 0xF0) * 262144 + (b1 - 0x80) * 4096 +
            (b2 - 0x80) * 64 + (b3 - 0x80)
          if n < 0x10000 ∨ 0x110000 ≤ n then Char.ofNat 0xFFFD :: utf8Decode fuel rest2
          else Char.ofNat n :: utf8Decode fuel rest2
        else Char.ofNat 0xFFFD :: utf8Decode fuel (b1 :: b2 :: b3 :: rest2)
      | _ => [Char.ofNat 0xFFFD]
    else Char.ofNat 0xFFFD :: utf8Decode fuel rest

/-- The value of a character in Node's base64 alphabet (standard alphabet
plus the url-safe aliases `-`/`_`); characters outside the alphabet,
including `=` padding, are skipped by Node's lenient decoder. -/
def base64CharValue (c : Char) : Option Nat :=
  if 'A' ≤ c ∧ c ≤ 'Z' then some (c.toNat - 'A'.toNat)
  else if 'a' ≤ c ∧ c ≤ 'z' then some (c.toNat - 'a'.toNat + 26)
  else if '0' ≤ c ∧ c ≤ '9' then some (c.toNat - '0'.toNat + 52)
  else if c = '+' ∨ c = '-' then some 62
  else if c = '/' ∨ c = '_' then some 63
  else none

/-- Decode a list of 6-bit values: complete groups of four become three
bytes, a trailing group of three becomes two bytes, of two becomes one
byte, and a single leftover value is dropped (Node `Buffer.from(_,
'base64')` semantics). -/
def base64Group : List Nat → List Nat
  | v0 :: v1 :: v2 :: v3 :: rest =>
    let n := ((v0 * 64 + v1) * 64 + v2) * 64 + v3
    n / 65536 :: n / 256 % 256 :: n % 256 :: base64Group rest
  | [v0, v1, v2] =>
    let n := (v0 * 64 + v1) * 64 + v2
    [n / 1024, n / 4 % 256]
  | [v0, v1] => [(v0 * 64 + v1) / 16]
  | _ => []

/-- Node's lenient `Buffer.from(s, 'base64')`. -/
def base64Decode (s : List Char) : List Nat :=
  base64Group (s.filterMap base64CharValue)

/-- Standard base64 encoding of a byte sequence (used for the
`Authorization: Basic` header built by `generateAuthToken`). -/
def base64EncodeBytes : List Nat → List Char
  | b0 :: b1 :: b2 :: rest =>
    let n := (b0 * 256 + b1) * 256 + b2
    let alphabet := "ABCDEFGHIJKLMNOPQRSTUVWXYZabcdefghijklmnopqrstuvwxyz0123456789+/".toList
    (alphabet.getD (n / 262144) 'A') :: (alphabet.getD (n / 4096 % 64) 'A') ::
      (alphabet.getD (n / 64 % 64) 'A') :: (alphabet.getD (n % 64) 'A') ::
      base64EncodeBytes rest
  | [b0, b1] =>
    let n := b0 * 256 + b1
    let alphabet := "ABCDEFGHIJKLMNOPQRSTUVWXYZabcdefghijklmnopqrstuvwxyz0123456789+/".toList
    [alphabet.getD (n / 1024) 'A', alphabet.getD (n / 16 % 64) 'A',
      alphabet.getD (n % 16 * 4) 'A', '=']
  | [b0] =>
    let alphabet := "ABCDEFGHIJKLMNOPQRSTUVWXYZabcdefghijklmnopqrstuvwxyz0123456789+/".toList
    [alphabet.getD (b0 / 4) 'A', alphabet.getD (b0 % 4 * 16) 'A', '=', '=']
  | [] => []

/-- `Buffer.from(s).toString('base64')`. -/
def base64Encode (s : String) : String :=
  ⟨base64EncodeBytes (utf8Encode s)⟩

/-! ### Connection configuration and the authentication exchange

`ScreepsAPI.authenticate` / `ScreepsAPI.generateAuthToken` perform network
calls; the embedding models the HTTP request each path would issue.  The
request plan records the URL path, method, headers and JSON body exactly as
the code builds them. -/

/-- `ConnectionConfig` from `types.ts`. -/
structure ConnectionConfig where
  host : String
  secure : Bool
  username : Option String
  password : Option String
  token : Option String
  shard : String
deriving DecidableEq, Repr

/-- An outbound HTTP request as assembled by the code (before transport). -/
structure HttpRequestPlan where
  path : String
  method : String
  headers : List (String × String)
  body : Option Json

/-- The `authtype` object literal of `ScreepsAPI.generateAuthToken`,
exactly as serialised into the request body. -/
def authtypeJson : Json :=
  .obj
    [("type", .str "full"),
     ("endpoints", .obj
        [("GET /api/user/name", .bool false),
         ("GET /api/user/money-history", .bool false),
         ("GET /api/market/my-orders", .bool false),
         ("GET /api/user/memory", .bool false),
         ("GET /api/user/memory-segment", .bool false),
         ("POST /api/user/memory-segment", .bool false)]),
     ("websockets", .obj
        [("console", .bool false),
         ("rooms", .bool false)]),
     ("memorySegments", .str "")]

/-- The request built by `ScreepsAPI.generateAuthToken`: a POST to
`/api/user/auth-token` carrying an `Authorization: Basic
base64(username:password)` header and the `authtype` JSON body. -/
def generateAuthTokenRequest (username password : String) : HttpRequestPlan :=
  { path := "/api/user/auth-token"
    method := "POST"
    headers :=
      [("Content-Type", "application/json"),
       ("Authorization", "Basic " ++ base64Encode (username ++ ":" ++ password))]
    body := some authtypeJson }

/-- The request built by the non-official-server branch of
`ScreepsAPI.authenticate`: a POST to `/api/auth/signin` with a JSON body
`{email, password}` and no `Authorization` header. -/
def signinRequest (username password : String) : HttpRequestPlan :=
  { path := "/api/auth/signin"
    method := "POST"
    headers := [("Content-Type", "application/json")]
    body := some (.obj [("email", .str username), ("password", .str password)]) }

/-- The token-exchange request `ScreepsAPI.authenticate` issues, if any:
`ok none` when a token credential is already present (no exchange call);
an error when username or password is missing or empty (JS falsiness of
`''`); otherwise the host decides between `generateAuthTokenRequest`
(official `screeps.com` / `screeps.com/ptr` hosts) and `signinRequest`. -/
def authExchangeRequest (cfg : ConnectionConfig) :
    Except String (Option HttpRequestPlan) :=
  if cfg.token.isSome then .ok none
  else
    match cfg.username, cfg.password with
    | some u, some p =>
      if u = "" ∨ p = "" then
        .error "Username and password required for authentication"
      else if cfg.host = "screeps.com" ∨ cfg.host = "screeps.com/ptr" then
        .ok (some (generateAuthTokenRequest u p))
      else
        .ok (some (signinRequest u p))
    | _, _ => .error "Username and password required for authentication"

/-! ### Tool-argument validation (`types.ts` schemas and `tools.ts` handlers)

`RoomNameArgsSchema` requires `roomName` to match `/^[EW]\d+[NS]\d+$/`;
`MemorySegmentArgsSchema` requires `segment` to be an integer in `[0, 99]`.
A handler whose validation fails returns the `ErrorHandler`'s
validation-error result (`isError: true`) before any `ScreepsAPI` method is
invoked; on success it invokes exactly one Connection Client operation.
The model records the handler's `isError` flag and the list of Connection
Client operations invoked (network results themselves are out of scope;
the success-path `isError` is that of the result built from a successful
API response). -/

/-- Decision procedure for the room-name regex `^[EW]\d+[NS]\d+$`
(`\d` is ASCII `0-9`). -/
def roomNameMatches (s : String) : Bool :=
  match s.toList with
  | c :: rest =>
    (c = 'E' ∨ c = 'W') &&
      (let ds := rest.takeWhile Char.isDigit
       let rest2 := rest.dropWhile Char.isDigit
       !ds.isEmpty &&
         match rest2 with
         | c2 :: rest3 => (c2 = 'N' ∨ c2 = 'S') && !rest3.isEmpty && rest3.all Char.isDigit
         | [] => false)
  | [] => false

/-- The `z.number().int().min(0).max(99)` bound of `MemorySegmentArgsSchema`
(arguments are modelled as integers; the `.int()` refinement is implicit). -/
def segmentValid (segment : Int) : Bool :=
  decide (0 ≤ segment) && decide (segment ≤ 99)

/-- What a tool handler call produced: the result's `isError` flag and the
Connection Client operations invoked during the call. -/
structure ToolCallModelResult where
  isError : Bool
  apiCalls : List String
deriving DecidableEq, Repr

/-- Model of `ScreepsTools.handleRoomObjects`: validate `roomName` against
`RoomNameArgsSchema`; on failure return the validation-error result without
touching the API; on success call `api.getRoomObjects(roomName)`. -/
def handleRoomObjects (roomName : String) : ToolCallModelResult :=
  if roomNameMatches roomName then
    { isError := false, apiCalls := ["getRoomObjects " ++ roomName] }
  else
    { isError := true, apiCalls := [] }

/-- Model of `ScreepsTools.handleMemorySegmentGet`: validate `segment`
against `MemorySegmentArgsSchema`; on failure return the validation-error
result without touching the API; on success call
`api.getMemorySegment(segment)`. -/
def handleMemorySegmentGet (segment : Int) : ToolCallModelResult :=
  if segmentValid segment then
    { isError := false, apiCalls := ["getMemorySegment " ++ toString segment] }
  else
    { isError := true, apiCalls := [] }

/-! ### A model of `JSON.parse` -/

/-- JSON insignificant whitespace. -/
def jsonWs (c : Char) : Bool :=
  c == ' ' || c == '\t' || c == '\n' || c == '\r'

/-- Hex digit value. -/
def hexVal (c : Char) : Option Nat :=
  if '0' ≤ c ∧ c ≤ '9' then some (c.toNat - '0'.toNat)
  else if 'a' ≤ c ∧ c ≤ 'f' then some (c.toNat - 'a'.toNat + 10)
  else if 'A' ≤ c ∧ c ≤ 'F' then some (c.toNat - 'A'.toNat + 10)
  else none

/-- Parse the body of a JSON string literal (after the opening quote),
returning the decoded characters and the input after the closing quote.
`\uXXXX` escapes forming a valid surrogate pair are combined; unpaired
surrogates (UTF-16 artifacts JS strings can hold but `Char` cannot) become
U+FFFD. -/
def parseStringChars : Nat → List Char → Except String (List Char × List Char)
  | 0, _ => .error "Unterminated string in JSON"
  | _ + 1, [] => .error "Unterminated string in JSON"
  | _ + 1, '"' :: rest => .ok ([], rest)
  | fuel + 1, '\\' :: 'u' :: h1 :: h2 :: h3 :: h4 :: rest =>
    (match hexVal h1, hexVal h2, hexVal h3, hexVal h4 with
     | some a, some b, some c, some d =>
       let code := ((a * 16 + b) * 16 + c) * 16 + d
       if 0xD800 ≤ code ∧ code ≤ 0xDBFF then
         match rest with
         | '\\' :: 'u' :: g1 :: g2 :: g3 :: g4 :: rest2 =>
           (match hexVal g1, hexVal g2, hexVal g3, hexVal g4 with
            | some a2, some b2, some c2, some d2 =>
              let lo := ((a2 * 16 + b2) * 16 + c2) * 16 + d2
              if 0xDC00 ≤ lo ∧ lo ≤ 0xDFFF then
                (parseStringChars fuel rest2).map (fun p =>
                  (Char.ofNat (0x10000 + (code - 0xD800) * 1024 + (lo - 0xDC00)) :: p.1, p.2))
              else
                (parseStringChars fuel rest).map (fun p => (Char.ofNat 0xFFFD :: p.1, p.2))
            | _, _, _, _ =>
              (parseStringChars fuel rest).map (fun p => (Char.ofNat 0xFFFD :: p.1, p.2)))
         | _ => (parseStringChars fuel rest).map (fun p => (Char.ofNat 0xFFFD :: p.1, p.2))
       else if 0xDC00 ≤ code ∧ code ≤ 0xDFFF then
         (parseStringChars fuel rest).map (fun p => (Char.ofNat 0xFFFD :: p.1, p.2))
       else
         (parseStringChars fuel rest).map (fun p => (Char.ofNat code :: p.1, p.2))
     | _, _, _, _ => .error "Bad Unicode escape in JSON")
  | fuel + 1, '\\' :: e :: rest =>
    (((match e with
     | '"' => .ok '"'
     | '\\' => .ok '\\'
     | '/' => .ok '/'
     | 'b' => .ok (Char.ofNat 8)
     | 'f' => .ok (Char.ofNat 12)
     | 'n' => .ok '\n'
     | 'r' => .ok (Char.ofNat 13)
     | 't' => .ok '\t'
     | _ => .error "Bad escaped character in JSON") : Except String Char)).bind
      (fun c => (parseStringChars fuel rest).map (fun p => (c :: p.1, p.2)))
  | fuel + 1, c :: rest =>
    if c.toNat < 0x20 then .error "Bad control character in JSON string"
    else (parseStringChars fuel rest).map (fun p => (c :: p.1, p.2))

/-- Digits to a natural number. -/
def digitsToNat (ds : List Char) : Nat :=
  ds.foldl (fun a c => a * 10 + (c.toNat - '0'.toNat)) 0

/-- The optional fraction part `.digits` of a JSON number. -/
def parseFracPart (cs : List Char) : Except String (List Char × List Char) :=
  match cs with
  | '.' :: t =>
    let fds := t.takeWhile Char.isDigit
    if fds.isEmpty then .error "Digits expected after decimal point in JSON"
    else .ok (fds, t.dropWhile Char.isDigit)
  | _ => .ok ([], cs)

/-- The optional exponent part of a JSON number. -/
def parseExponentPart (cs : List Char) : Except String (Int × List Char) :=
  match cs with
  | c :: t =>
    if c = 'e' ∨ c = 'E' then
      let sgnT : Int × List Char := match t with
        | '+' :: u => (1, u)
        | '-' :: u => (-1, u)
        | _ => (1, t)
      let eds := sgnT.2.takeWhile Char.isDigit
      if eds.isEmpty then .error "Exponent digits expected in JSON"
      else .ok (sgnT.1 * (digitsToNat eds : Int), sgnT.2.dropWhile Char.isDigit)
    else .ok (0, cs)
  | [] => .ok (0, [])

/-- Parse a JSON number (grammar `-? int frac? exp?`), kept exactly as
mantissa and decimal exponent. -/
def parseNumber (cs : List Char) : Except String (Json × List Char) :=
  let negT : Bool × List Char := match cs with
    | '-' :: t => (true, t)
    | _ => (false, cs)
  let ids := negT.2.takeWhile Char.isDigit
  let cs2 := negT.2.dropWhile Char.isDigit
  if ids.isEmpty then .error "Unexpected token in JSON"
  else if 1 < ids.length ∧ ids.headD '0' = '0' then
    .error "Unexpected number with leading zero in JSON"
  else
    match parseFracPart cs2 with
    | .error e => .error e
    | .ok (fds, cs3) =>
      match parseExponentPart cs3 with
      | .error e => .error e
      | .ok (ex, cs4) =>
        let mant : Int := (digitsToNat (ids ++ fds) : Int)
        .ok (.num (if negT.1 then -mant else mant) (ex - fds.length), cs4)

mutual

/-- Parse one JSON value.  The fuel bounds the recursion; any fuel larger
than the input length suffices, since every nested value consumes at least
one character before recursing. -/
def parseJsonValue : Nat → List Char → Except String (Json × List Char)
  | 0, _ => .error "JSON value nesting exceeds the input length"
  | fuel + 1, cs =>
    match cs.dropWhile jsonWs with
    | [] => .error "Unexpected end of JSON input"
    | 'n' :: 'u' :: 'l' :: 'l' :: rest => .ok (.null, rest)
    | 't' :: 'r' :: 'u' :: 'e' :: rest => .ok (.bool true, rest)
    | 'f' :: 'a' :: 'l' :: 's' :: 'e' :: rest => .ok (.bool false, rest)
    | '"' :: rest => (parseStringChars (rest.length + 1) rest).map (fun p => (.str ⟨p.1⟩, p.2))
    | '[' :: rest => (parseArrayItems fuel rest true).map (fun p => (.arr p.1, p.2))
    | '{' :: rest => (parseObjectItems fuel rest true).map (fun p => (.obj p.1, p.2))
    | cs2 => parseNumber cs2

/-- Parse the items of a JSON array, positioned after `[` (when `first`)
or after a `,`. -/
def parseArrayItems : Nat → List Char → Bool → Except String (List Json × List Char)
  | 0, _, _ => .error "JSON value nesting exceeds the input length"
  | fuel + 1, cs, first =>
    match cs.dropWhile jsonWs with
    | ']' :: rest =>
      if first then .ok ([], rest)
      else .error "Unexpected token ] in JSON"
    | cs2 =>
      match parseJsonValue fuel cs2 with
      | .error e => .error e
      | .ok (v, cs3) =>
        match cs3.dropWhile jsonWs with
        | ',' :: rest =>
          (parseArrayItems fuel rest false).map (fun p => (v :: p.1, p.2))
        | ']' :: rest => .ok ([v], rest)
        | _ => .error "Expected , or ] after JSON array element"

/-- Parse the fields of a JSON object, positioned after `{` (when `first`)
or after a `,`. -/
def parseObjectItems : Nat → List Char → Bool →
    Except String (List (String × Json) × List Char)
  | 0, _, _ => .error "JSON value nesting exceeds the input length"
  | fuel + 1, cs, first =>
    match cs.dropWhile jsonWs with
    | '}' :: rest =>
      if first then .ok ([], rest)
      else .error "Unexpected token \x7d in JSON"
    | '"' :: cs2 =>
      match parseStringChars (cs2.length + 1) cs2 with
      | .error e => .error e
      | .ok (key, cs3) =>
        match cs3.dropWhile jsonWs with
        | ':' :: cs4 =>
          match parseJsonValue fuel cs4 with
          | .error e => .error e
          | .ok (v, cs5) =>
            match cs5.dropWhile jsonWs with
            | ',' :: rest =>
              (parseObjectItems fuel rest false).map (fun p => ((⟨key⟩, v) :: p.1, p.2))
            | '}' :: rest => .ok ([(⟨key⟩, v)], rest)
            | _ => .error "Expected , or end of object after JSON member"
        | _ => .error "Expected : after JSON object key"
    | _ => .error "Expected string key in JSON object"

end

/-- Model of `JSON.parse`: parse one value and require only whitespace to
remain. -/
def jsonParse (s : String) : Except String Json :=
  match parseJsonValue (s.length + 1) s.toList with
  | .error e => .error e
  | .ok (v, rest) =>
    if (rest.dropWhile jsonWs).isEmpty then .ok v
    else .error "Unexpected non-whitespace character after JSON data"

/-! ### A model of `zlib.inflateSync`

`inflateSync` decodes a zlib stream (RFC 1950 wrapper around RFC 1951
DEFLATE data) and throws on malformed input.  The model returns
`Except String (List Nat)`; error strings echo zlib's messages.  Bits are
numbered LSB-first within each byte, as DEFLATE prescribes. -/

/-- Bit `pos` of a byte sequence. -/
def getBit (bytes : List Nat) (pos : Nat) : Option Nat :=
  (bytes.get? (pos / 8)).map (fun b => b / 2 ^ (pos % 8) % 2)

/-- Read `n` bits starting at `pos` as an LSB-first integer. -/
def getBits (bytes : List Nat) (pos : Nat) : Nat → Option Nat
  | 0 => some 0
  | m + 1 =>
    match getBit bytes pos, getBits bytes (pos + 1) m with
    | some b, some v => some (b + 2 * v)
    | _, _ => none

/-- A canonical Huffman code: `count` of codes per length 0..15 and the
symbols sorted by (code length, symbol value). -/
structure Huffman where
  count : List Nat
  symbol : List Nat

/-- Build the canonical Huffman decoding tables from per-symbol code
lengths (length 0 = symbol unused). -/
def buildHuffman (lengths : List Nat) : Huffman :=
  { count := (List.range 16).map (fun len => (lengths.filter (fun l => l = len)).length)
    symbol := ((List.range 15).map (· + 1)).flatMap (fun len =>
      (List.range lengths.length).filter (fun s => lengths.getD s 0 = len)) }

/-- A canonical code is over-subscribed when some length has more codes
than the code space allows (zlib rejects such code sets). -/
def huffmanOversubscribed (h : Huffman) : Bool :=
  ((List.range 15).foldl (fun acc len =>
    match acc with
    | none => none
    | some left =>
      let left2 := left * 2 - h.count.getD (len + 1) 0
      if left * 2 < h.count.getD (len + 1) 0 then none else some left2) (some 1)).isNone

/-- Decode one Huffman codeword starting at bit `pos` (the walk over code
lengths 1..15 used by zlib: codewords are packed most-significant bit
first).  Returns the symbol and the bit position after the codeword. -/
def decodeSymbolAux (bytes : List Nat) (h : Huffman) :
    Nat → Nat → Nat → Nat → Nat → Nat → Option (Nat × Nat)
  | 0, _, _, _, _, _ => none
  | fuel + 1, len, code, first, index, pos =>
    match getBit bytes pos with
    | none => none
    | some b =>
      let code2 := code * 2 + b
      let cnt := h.count.getD len 0
      if first ≤ code2 ∧ code2 < first + cnt then
        match h.symbol.get? (index + (code2 - first)) with
        | some sym => some (sym, pos + 1)
        | none => none
      else
        decodeSymbolAux bytes h fuel (len + 1) code2 ((first + cnt) * 2) (index + cnt) (pos + 1)

/-- Decode one codeword of `h` at bit `pos`. -/
def decodeSymbol (bytes : List Nat) (h : Huffman) (pos : Nat) : Option (Nat × Nat) :=
  decodeSymbolAux bytes h 15 1 0 0 0 pos

/-- Length-code extra-bit counts (symbols 257-285): eight zeros, then 1-5
four times each, then the zero of the fixed length 258. -/
def lengthExtra : List Nat :=
  List.replicate 4 0 ++ (List.range 6).flatMap (List.replicate 4) ++ [0]

/-- Base values from extra-bit counts: each base is the previous base plus
the previous code's span `2 ^ extra`. -/
def codeBaseScan (start : Nat) (extras : List Nat) : List Nat :=
  (extras.foldl (fun (acc : List Nat × Nat) e =>
    (acc.1 ++ [acc.2], acc.2 + 2 ^ e)) ([], start)).1

/-- Length-code base values (symbols 257-285); symbol 285 is the fixed
length 258 rather than the continuation of the scan. -/
def lengthBase : List Nat :=
  (codeBaseScan 3 lengthExtra).set 28 258

/-- Distance-code extra-bit counts: two zeros, then 0-13 twice each. -/
def distExtra : List Nat :=
  [0, 0] ++ (List.range 14).flatMap (fun i => [i, i])

/-- Distance-code base values (the scan from 1 is exact here). -/
def distBase : List Nat :=
  codeBaseScan 1 distExtra

/-- LZ77 back-reference copy: repeat `n` times the byte `dist` positions
back in the output (held in reverse), allowing overlap. -/
def copyBack (dist : Nat) : Nat → List Nat → Option (List Nat)
  | 0, outRev => some outRev
  | n + 1, outRev =>
    match outRev.get? (dist - 1) with
    | none => none
    | some v => copyBack dist n (v :: outRev)

/-- The literal/length-then-distance decoding loop shared by fixed and
dynamic DEFLATE blocks.  Output is accumulated in reverse. -/
def inflateCodes (bytes : List Nat) (lit dist : Huffman) :
    Nat → Nat → List Nat → Except String (List Nat × Nat)
  | 0, _, _ => .error "invalid code lengths set"
  | fuel + 1, pos, outRev =>
    match decodeSymbol bytes lit pos with
    | none => .error "invalid literal/length code"
    | some (sym, pos1) =>
      if sym < 256 then inflateCodes bytes lit dist fuel pos1 (sym :: outRev)
      else if sym = 256 then .ok (outRev, pos1)
      else if sym ≤ 285 then
        match lengthBase.get? (sym - 257), lengthExtra.get? (sym - 257) with
        | some lb, some le =>
          (match getBits bytes pos1 le with
           | none => .error "unexpected end of file"
           | some ev =>
             let pos2 := pos1 + le
             match decodeSymbol bytes dist pos2 with
             | none => .error "invalid distance code"
             | some (dsym, pos3) =>
               match distBase.get? dsym, distExtra.get? dsym with
               | some db, some de =>
                 (match getBits bytes pos3 de with
                  | none => .error "unexpected end of file"
                  | some dev =>
                    match copyBack (db + dev) (lb + ev) outRev with
                    | none => .error "invalid distance too far back"
                    | some outRev2 => inflateCodes bytes lit dist fuel (pos3 + de) outRev2)
               | _, _ => .error "invalid distance code"
           )
        | _, _ => .error "invalid literal/length code"
      else .error "invalid literal/length code"

/-- A stored (uncompressed) DEFLATE block: align to a byte boundary, read
`LEN`/`NLEN` (little endian, one the complement of the other) and copy
`LEN` raw bytes. -/
def inflateStored (bytes : List Nat) (pos : Nat) (outRev : List Nat) :
    Except String (List Nat × Nat) :=
  let bi := (pos + 7) / 8
  match bytes.get? bi, bytes.get? (bi + 1), bytes.get? (bi + 2), bytes.get? (bi + 3) with
  | some l0, some l1, some n0, some n1 =>
    let len := l0 + 256 * l1
    let nlen := n0 + 256 * n1
    if len + nlen ≠ 65535 then .error "invalid stored block lengths"
    else
      let data := (bytes.drop (bi + 4)).take len
      if data.length < len then .error "unexpected end of file"
      else .ok (data.reverse ++ outRev, (bi + 4 + len) * 8)
  | _, _, _, _ => .error "unexpected end of file"

/-- Fixed-Huffman literal/length code lengths (RFC 1951 section 3.2.6):
8 bits for symbols 0-143 and 280-287, 9 bits for 144-255, 7 for 256-279. -/
def fixedLitLengths : List Nat :=
  (List.range 288).map (fun s =>
    if s < 144 then 8 else if s < 256 then 9 else if s < 280 then 7 else 8)

/-- Fixed-Huffman distance code lengths: 5 bits for each of the 30 codes. -/
def fixedDistLengths : List Nat :=
  (List.range 30).map (fun _ => 5)

/-- The order in which code lengths for the code-length alphabet are
stored in a dynamic block. -/
def clOrder : List Nat :=
  [16, 17, 18, 0, 8, 7, 9, 6, 10, 5, 11, 4, 12, 3, 13, 2, 14, 1, 15]

/-- Read `n` 3-bit code-length-code lengths starting at `pos`. -/
def readClcl (bytes : List Nat) : Nat → Nat → Except String (List Nat × Nat)
  | pos, 0 => .ok ([], pos)
  | pos, n + 1 =>
    match getBits bytes pos 3 with
    | none => .error "unexpected end of file"
    | some v =>
      (readClcl bytes (pos + 3) n).map (fun p => (v :: p.1, p.2))

/-- Scatter the transmitted code-length-code lengths into symbol order. -/
def placeClcl (vals : List Nat) : List Nat :=
  (List.range 19).map (fun i =>
    match clOrder.findIdx? (fun o => o = i) with
    | some j => vals.getD j 0
    | none => 0)

/-- Decode the `total` literal/length + distance code lengths of a dynamic
block, expanding the repeat codes 16/17/18.  Accumulates in reverse. -/
def decodeLengths (bytes : List Nat) (h : Huffman) (total : Nat) :
    Nat → Nat → List Nat → Except String (List Nat × Nat)
  | 0, _, _ => .error "invalid code lengths set"
  | fuel + 1, pos, acc =>
    if total ≤ acc.length then
      if acc.length = total then .ok (acc.reverse, pos)
      else .error "invalid bit length repeat"
    else
      match decodeSymbol bytes h pos with
      | none => .error "invalid code lengths set"
      | some (sym, pos1) =>
        if sym ≤ 15 then decodeLengths bytes h total fuel pos1 (sym :: acc)
        else if sym = 16 then
          match acc.head?, getBits bytes pos1 2 with
          | some prev, some ev =>
            decodeLengths bytes h total fuel (pos1 + 2) (List.replicate (3 + ev) prev ++ acc)
          | _, _ => .error "invalid bit length repeat"
        else if sym = 17 then
          match getBits bytes pos1 3 with
          | some ev =>
            decodeLengths bytes h total fuel (pos1 + 3) (List.replicate (3 + ev) 0 ++ acc)
          | none => .error "unexpected end of file"
        else if sym = 18 then
          match getBits bytes pos1 7 with
          | some ev =>
            decodeLengths bytes h total fuel (pos1 + 7) (List.replicate (11 + ev) 0 ++ acc)
          | none => .error "unexpected end of file"
        else .error "invalid code lengths set"

/-- Decode one dynamic-Huffman block. -/
def inflateDynamic (bytes : List Nat) (fuel pos : Nat) (outRev : List Nat) :
    Except String (List Nat × Nat) :=
  match getBits bytes pos 5, getBits bytes (pos + 5) 5, getBits bytes (pos + 10) 4 with
  | some hlitRaw, some hdistRaw, some hclenRaw =>
    let nlen := hlitRaw + 257
    let ndist := hdistRaw + 1
    let ncode := hclenRaw + 4
    if 286 < nlen ∨ 30 < ndist then .error "too many length or distance symbols"
    else
      match readClcl bytes (pos + 14) ncode with
      | .error e => .error e
      | .ok (vals, pos2) =>
        let clHuff := buildHuffman (placeClcl vals)
        if huffmanOversubscribed clHuff then .error "invalid code lengths set"
        else
          match decodeLengths bytes clHuff (nlen + ndist) fuel pos2 [] with
          | .error e => .error e
          | .ok (lens, pos3) =>
            let litHuff := buildHuffman (lens.take nlen)
            let distHuff := buildHuffman (lens.drop nlen)
            if huffmanOversubscribed litHuff ∨ huffmanOversubscribed distHuff then
              .error "invalid literal/lengths set"
            else inflateCodes bytes litHuff distHuff fuel pos3 outRev
  | _, _, _ => .error "unexpected end of file"

/-- The DEFLATE block loop: read `BFINAL`/`BTYPE`, decode the block, stop
after the final block.  Returns the output (in reverse) and the bit
position after the last block. -/
def inflateBlocks (bytes : List Nat) : Nat → Nat → List Nat →
    Except String (List Nat × Nat)
  | 0, _, _ => .error "unexpected end of file"
  | fuel + 1, pos, outRev =>
    match getBit bytes pos, getBits bytes (pos + 1) 2 with
    | some bfinal, some btype =>
      let res :=
        if btype = 0 then inflateStored bytes (pos + 3) outRev
        else if btype = 1 then
          inflateCodes bytes (buildHuffman fixedLitLengths)
            (buildHuffman fixedDistLengths) (8 * bytes.length + 64) (pos + 3) outRev
        else if btype = 2 then inflateDynamic bytes (8 * bytes.length + 64) (pos + 3) outRev
        else .error "invalid block type"
      match res with
      | .error e => .error e
      | .ok (outRev2, pos2) =>
        if bfinal = 1 then .ok (outRev2, pos2)
        else inflateBlocks bytes fuel pos2 outRev2
    | _, _ => .error "unexpected end of file"

/-- Adler-32 checksum (RFC 1950). -/
def adler32 (bytes : List Nat) : Nat :=
  let p := bytes.foldl (fun (p : Nat × Nat) b =>
    ((p.1 + b) % 65521, (p.2 + p.1 + b) % 65521)) (1, 0)
  p.2 * 65536 + p.1

/-- Model of `zlib.inflateSync`: check the 2-byte zlib header, inflate the
DEFLATE stream, then verify the trailing big-endian Adler-32 checksum. -/
def zlibInflate (bytes : List Nat) : Except String (List Nat) :=
  match bytes.get? 0, bytes.get? 1 with
  | some cmf, some flg =>
    if cmf % 16 ≠ 8 then .error "incorrect header check"
    else if 7 < cmf / 16 then .error "invalid window size"
    else if (cmf * 256 + flg) % 31 ≠ 0 then .error "incorrect header check"
    else if flg / 32 % 2 = 1 then .error "preset dictionary needed"
    else
      match inflateBlocks bytes (8 * bytes.length + 64) 16 [] with
      | .error e => .error e
      | .ok (outRev, pos) =>
        let out := outRev.reverse
        let bi := (pos + 7) / 8
        match bytes.get? bi, bytes.get? (bi + 1), bytes.get? (bi + 2),
            bytes.get? (bi + 3) with
        | some a0, some a1, some a2, some a3 =>
          if ((a0 * 256 + a1) * 256 + a2) * 256 + a3 = adler32 out then .ok out
          else .error "incorrect data check"
        | _, _, _, _ => .error "unexpected end of file"
  | _, _ => .error "unexpected end of file"

/-! ### The `ScreepsAPI` instance state and the console stream

The mutable fields of a `ScreepsAPI` instance that the console-stream
subsystem reads or writes (`config.shard`, `token`, `userId`,
`consoleSocket`, `consoleShard`, `maxConsoleBuffer`, `consoleBuffer`).
The websocket is represented by its ready state; incoming socket events
are supplied as an explicit script; frames sent with `ws.send` are
collected in a trace. -/

/-- WebSocket `readyState`. -/
inductive ReadyState where
  | connecting
  | opened
  | closed
deriving DecidableEq, Repr

/-- The modelled mutable state of one `ScreepsAPI` instance. -/
structure ApiState where
  configShard : String
  token : Option String
  userId : Option String
  consoleSocket : Option ReadyState
  consoleShard : Option String
  maxConsoleBuffer : Nat
  consoleBuffer : List ConsoleMessage
deriving DecidableEq, Repr

/-- JS `a || b` for an optional string `a` (`undefined` and `''` are both
falsy). -/
def jsOrString (a : Option String) (b : String) : String :=
  match a with
  | some s => if s = "" then b else s
  | none => b

/-- JS `s.startsWith(pre)` (kernel-reducible form of `String.startsWith`). -/
def strStartsWith (s pre : String) : Bool :=
  pre.toList.isPrefixOf s.toList

/-- Model of `ScreepsAPI.parseSocketMessage`: a frame starting with `gz`
has `message.substring(3)` base64-decoded and inflated before JSON
parsing; any other frame is JSON-parsed directly. -/
def parseSocketMessage (message : String) : Except String Json :=
  if strStartsWith message "gz" then
    let compressed := base64Decode (message.toList.drop 3)
    match zlibInflate compressed with
    | .error e => .error e
    | .ok decompressed => jsonParse ⟨utf8Decode (decompressed.length + 1) decompressed⟩
  else jsonParse message

/-- One classification pass of `processConsoleMessages`: if the field
`name` of the payload is present, truthy and an array of strings, admit
each of its lines with kind `ty`. -/
def processField (maxBuf : Nat) (shard : String) (now : Nat) (mj : Json)
    (name : String) (ty : MsgType) (buf : List ConsoleMessage) :
    List ConsoleMessage :=
  match jsonGetField mj name with
  | some v =>
    if jsTruthy v && isArrayOfStrings v then
      (jsonStringItems v).foldl
        (fun b line => pushMessage maxBuf b ⟨line, ty, shard, now⟩) buf
    else buf
  | none => buf

/-- Model of `ScreepsAPI.processConsoleMessages`: classify the `log`,
`results`, `errors` and `highlight` arrays of a payload, in that order. -/
def processConsoleMessages (st : ApiState) (now : Nat) (mj : Json)
    (shard : String) : ApiState :=
  let b1 := processField st.maxConsoleBuffer shard now mj "log" .log st.consoleBuffer
  let b2 := processField st.maxConsoleBuffer shard now mj "results" .result b1
  let b3 := processField st.maxConsoleBuffer shard now mj "errors" .error b2
  let b4 := processField st.maxConsoleBuffer shard now mj "highlight" .highlight b3
  { st with consoleBuffer := b4 }

/-- The shard recorded with a decoded frame:
`messageData.shard || this.consoleShard || this.config.shard` (the server
sends the shard as a string; a missing/empty value falls back). -/
def shardFromPayload (messageData : Json) (st : ApiState) : String :=
  match jsonGetField messageData "shard" with
  | some (.str s) => if s = "" then jsOrString st.consoleShard st.configShard else s
  | _ => jsOrString st.consoleShard st.configShard

/-- Model of `ScreepsAPI.handleConsoleSocketPayload`: parse the frame (a
parse failure is logged and discarded, leaving the state unchanged); for a
parsed array of more than one element whose second element is truthy and
has a truthy `messages` property, classify and buffer its console lines. -/
def handleConsoleSocketPayload (st : ApiState) (now : Nat) (message : String) :
    ApiState :=
  match parseSocketMessage message with
  | .error _ => st
  | .ok parsed =>
    match parsed with
    | .arr elems =>
      if 1 < elems.length then
        let messageData := elems.getD 1 .null
        if jsTruthy messageData then
          match jsonGetField messageData "messages" with
          | some mj =>
            if jsTruthy mj then
              processConsoleMessages st now mj (shardFromPayload messageData st)
            else st
          | none => st
        else st
      else st
    | _ => st

/-- `ConsoleStreamState` from `types.ts`, as produced by
`ScreepsAPI.getConsoleStreamState`. -/
structure ConsoleStreamState where
  shard : String
  isActive : Bool
  buffered : Nat
deriving DecidableEq, Repr

/-- Model of `ScreepsAPI.getConsoleStreamState`. -/
def getConsoleStreamState (st : ApiState) : ConsoleStreamState :=
  { shard := jsOrString st.consoleShard st.configShard
    isActive := decide (st.consoleSocket = some ReadyState.opened)
    buffered := st.consoleBuffer.length }

/-- Model of `ScreepsAPI.stopConsoleStream`: `close()` the socket when one
is present and clear the `consoleSocket` field.  The boolean reports
whether a socket's `close()` was invoked.  The console buffer is not
touched. -/
def stopConsoleStream (st : ApiState) : ApiState × Bool :=
  ({ st with consoleSocket := none }, st.consoleSocket.isSome)

/-- One incoming websocket event during/after the `startConsoleStream`
handshake. -/
inductive SocketEvent where
  | socketOpen
  | message (data : String)
  | errored
  | socketClose
deriving DecidableEq, Repr

/-- Result of the handshake event loop: the promise resolved (`subscribed`),
rejected (`failed`), or the script ended with the promise still pending. -/
inductive HandshakeResult where
  | subscribed (st : ApiState) (sent : List String)
  | failed (st : ApiState) (sent : List String)
  | pending (st : ApiState) (sent : List String)

/-- The event handlers `startConsoleStream` installs on the socket, run
over a script of events: `open` sends `auth <token>`; a message starting
`auth ok` sends the subscribe frame and resolves; other messages that are
not `time` heartbeats go to `handleConsoleSocketPayload`; an error or a
close before resolution rejects. -/
def runHandshake (tk uid : String) (now : Nat) :
    ApiState → List String → Bool → List SocketEvent → HandshakeResult
  | st, sent, resolved, [] =>
    if resolved then .subscribed st sent else .pending st sent
  | st, sent, resolved, ev :: rest =>
    match ev with
    | .socketOpen =>
      runHandshake tk uid now { st with consoleSocket := some .opened }
        (sent ++ ["auth " ++ tk]) resolved rest
    | .message m =>
      if strStartsWith m "auth ok" then
        runHandshake tk uid now st
          (sent ++ ["subscribe user:" ++ uid ++ "/console"]) true rest
      else if strStartsWith m "time" then
        runHandshake tk uid now st sent resolved rest
      else
        runHandshake tk uid now (handleConsoleSocketPayload st now m) sent resolved rest
    | .errored =>
      if resolved then runHandshake tk uid now st sent resolved rest
      else .failed st sent
    | .socketClose =>
      if resolved then
        runHandshake tk uid now { st with consoleSocket := some .closed } sent resolved rest
      else .failed { st with consoleSocket := some .closed } sent

/-- The clamp `Math.min(Math.max(bufferSize, 10), 5000)` applied by
`startConsoleStream` to a positive `bufferSize` argument. -/
def clampBufferSize (b : Int) : Nat :=
  (min (max b 10) 5000).toNat

/-- What a `startConsoleStream` call did: whether the returned promise
resolved, the resulting instance state, the frames sent over the socket,
and whether a new `WebSocket` was constructed. -/
structure StartResult where
  ok : Bool
  state : ApiState
  sentFrames : List String
  openedSocket : Bool
deriving Repr

/-- The lazy `authenticate()` call at the top of `startConsoleStream`:
skipped when both a token and a user id are present; otherwise the
(network) authentication outcome is supplied by `authResult`. -/
def ensureAuth (st : ApiState) (authResult : Except String (String × String)) :
    Except String ApiState :=
  if st.token.isNone ∨ st.userId.isNone then
    match authResult with
    | .ok (tk, uid) => .ok { st with token := some tk, userId := some uid }
    | .error e => .error e
  else .ok st

/-- Model of `ScreepsAPI.startConsoleStream(shard?, bufferSize?)`:
clamp and store a positive `bufferSize`; authenticate if needed; record
the target shard in `consoleShard`; if the existing socket is open,
return immediately (no new socket); otherwise construct a socket and run
the handshake over the supplied event script, clearing `consoleSocket`
when the handshake promise rejects. -/
def startConsoleStream (st0 : ApiState) (shard? : Option String)
    (bufferSize? : Option Int) (authResult : Except String (String × String))
    (events : List SocketEvent) (now : Nat) : StartResult :=
  let st1 := match bufferSize? with
    | some b => if 0 < b then { st0 with maxConsoleBuffer := clampBufferSize b } else st0
    | none => st0
  match ensureAuth st1 authResult with
  | .error _ => { ok := false, state := st1, sentFrames := [], openedSocket := false }
  | .ok st2 =>
    let targetShard := shard?.getD st2.configShard
    let st3 := { st2 with consoleShard := some targetShard }
    if st3.consoleSocket = some .opened then
      { ok := true, state := st3, sentFrames := [], openedSocket := false }
    else
      let tk := st3.token.getD ""
      let uid := st3.userId.getD ""
      let st4 := { st3 with consoleSocket := some .connecting }
      match runHandshake tk uid now st4 [] false events with
      | .subscribed st5 sent =>
        { ok := true, state := st5, sentFrames := sent, openedSocket := true }
      | .failed st5 sent =>
        { ok := false, state := { st5 with consoleSocket := none },
          sentFrames := sent, openedSocket := true }
      | .pending st5 sent =>
        { ok := false, state := st5, sentFrames := sent, openedSocket := true }

/-! ### Auxiliary predicate and concrete scenario instances -/

/-- Shape of `stripHtmlTags` output: every `<` has no `>` anywhere after
it, so no further `/<[^>]*>/` match can start. -/
def NoTagStart : List Char → Prop
  | [] => True
  | c :: rest => (c = '<' → '>' ∉ rest) ∧ NoTagStart rest

/-- Two request maps are observationally equal from time `τ` on: at every
key and every read time `now ≥ τ`, their in-window timestamp lists agree.
`allowRequest` depends on the map only through this view. -/
def FilterEq (W τ : Int) (m1 m2 : String → Option (List Int)) : Prop :=
  ∀ (k : String) (now : Int), τ ≤ now →
    ((m1 k).getD []).filter (fun t => now - W < t) =
      ((m2 k).getD []).filter (fun t => now - W < t)

/-- An authenticated instance state with an empty buffer and an open
socket whose stream subscribed on `shard0`. -/
def stOpen : ApiState :=
  { configShard := "shard0", token := some "tk", userId := some "uid",
    consoleSocket := some .opened, consoleShard := some "shard0",
    maxConsoleBuffer := 500, consoleBuffer := [] }

/-- The same instance with no socket (stream never started). -/
def stNoSocket : ApiState :=
  { stOpen with consoleSocket := none }

/-- A console-stream frame in the server's actual format: `gz`, a
separator byte, then base64 of the zlib stream compressing the payload
`["console",{"messages":{"log":["<b>hi</b>"]},"shard":"shard1"} ]`. -/
def frameGzSep : String :=
  "gz:eAEBQAC//1siY29uc29sZSIseyJtZXNzYWdlcyI6eyJsb2ciOlsiPGI+aGk8L2I+Il19LCJzaGFyZCI6InNoYXJkMSJ9IF21fRS5"

/-- The same frame built the way claim C1 states it: `gz` immediately
followed by the base64 payload, with no separator character. -/
def frameGzNoSep : String :=
  "gzeAEBQAC//1siY29uc29sZSIseyJtZXNzYWdlcyI6eyJsb2ciOlsiPGI+aGk8L2I+Il19LCJzaGFyZCI6InNoYXJkMSJ9IF21fRS5"

/-- The admitted `ConsoleMessage` of the gz scenario. -/
def msgHi : ConsoleMessage :=
  { line := "hi", shard := "shard1", timestamp := some 1000, type := some MsgType.log }

/-- Four plain console lines for the buffer-bound scenario. -/
def msgsABCD : List IncomingLine :=
  [⟨"A", .log, "shard0", 1⟩, ⟨"B", .log, "shard0", 2⟩,
   ⟨"C", .log, "shard0", 3⟩, ⟨"D", .log, "shard0", 4⟩]

/-- A two-message buffer for the buffered-read scenario. -/
def bufAB : List ConsoleMessage :=
  [{ line := "a", shard := "shard0", timestamp := some 2, type := some .log },
   { line := "b", shard := "shard0", timestamp := some 5, type := some .log }]

/-- A limiter with window 10 and maximum 2 whose key `k` has two admitted
timestamps. -/
def rlTwo : RateLimiter :=
  { windowMs := 10, maxRequests := 2,
    requests := fun k => if k = "k" then some [1, 2] else none }

/-- A fresh limiter with window 10 and maximum 1. -/
def rlFresh : RateLimiter :=
  { windowMs := 10, maxRequests := 1, requests := fun _ => none }

/-- A trace interleaving `allowRequest` and `cleanup` calls at
non-decreasing times. -/
def opsMixed : List LimiterOp :=
  [.allow "a" 1, .cleanupAt 2, .allow "a" 3, .allow "b" 3,
   .cleanupAt 20, .allow "a" 21, .allow "b" 21]

/-! ## Theorems -/

/-! ### C8: HTML stripping is idempotent -/

theorem dropThroughGt_eq_none_iff {l : List Char} :
    dropThroughGt l = none ↔ '>' ∉ l := by
  induction l with
  | nil => simp [dropThroughGt]
  | cons c rest ih =>
    by_cases hc : c = '>'
    · subst hc; simp [dropThroughGt]
    · simp [dropThroughGt, hc, Ne.symm hc, ih]

theorem dropThroughGt_length : ∀ {l l2 : List Char},
    dropThroughGt l = some l2 → l2.length < l.length := by
  intro l
  induction l with
  | nil => intro l2 h; simp [dropThroughGt] at h
  | cons c rest ih =>
    intro l2 h
    by_cases hc : c = '>'
    · subst hc
      simp [dropThroughGt] at h
      subst h
      simp
    · simp [dropThroughGt, hc] at h
      have := ih h
      simp [List.length_cons]
      omega

theorem noTagStart_of_no_gt : ∀ {l : List Char}, '>' ∉ l → NoTagStart l := by
  intro l
  induction l with
  | nil => intro _; trivial
  | cons c rest ih =>
    intro h
    have hr : '>' ∉ rest := fun hm => h (List.mem_cons_of_mem _ hm)
    exact ⟨fun _ => hr, ih hr⟩

theorem stripHtmlAux_of_noTagStart :
    ∀ (fuel : Nat) {l : List Char}, NoTagStart l → stripHtmlAux fuel l = l := by
  intro fuel
  induction fuel with
  | zero => intro l _; rfl
  | succ fuel ih =>
    intro l h
    cases l with
    | nil => rfl
    | cons c rest =>
      by_cases hc : c = '<'
      · have hr : '>' ∉ rest := h.1 hc
        simp [stripHtmlAux, hc, dropThroughGt_eq_none_iff.mpr hr]
      · simp [stripHtmlAux, hc, ih h.2]

theorem noTagStart_stripHtmlAux :
    ∀ (fuel : Nat) (l : List Char), l.length ≤ fuel →
      NoTagStart (stripHtmlAux fuel l) := by
  intro fuel
  induction fuel with
  | zero =>
    intro l hl
    have : l = [] := List.eq_nil_of_length_eq_zero (Nat.le_zero.mp hl)
    subst this
    trivial
  | succ fuel ih =>
    intro l hl
    cases l with
    | nil => simp [stripHtmlAux]; trivial
    | cons c rest =>
      simp only [List.length_cons] at hl
      by_cases hc : c = '<'
      · cases hg : dropThroughGt rest with
        | some rest2 =>
          have hlen : rest2.length ≤ fuel := by
            have := dropThroughGt_length hg
            omega
          simpa [stripHtmlAux, hc, hg] using ih rest2 hlen
        | none =>
          have hr : '>' ∉ rest := dropThroughGt_eq_none_iff.mp hg
          have : NoTagStart (c :: rest) := ⟨fun _ => hr, noTagStart_of_no_gt hr⟩
          simpa [stripHtmlAux, hc, hg] using this
      · have h2 := ih rest (by omega)
        simp only [stripHtmlAux, if_neg hc]
        exact ⟨fun h => absurd h hc, h2⟩

/-- C8: the HTML-tag stripping applied when a streamed console message is
stored is idempotent — `strip(strip(s)) = strip(s)` for every string —
and the entry admitted by `pushMessage` carries the stripped line, which
a further strip leaves unchanged. -/
theorem c8_strip_idempotent :
    (∀ s : String, stripHtmlTags (stripHtmlTags s) = stripHtmlTags s) ∧
    ∀ m : IncomingLine,
      (mkEntry m).line = stripHtmlTags m.line ∧
      stripHtmlTags (mkEntry m).line = (mkEntry m).line := by
  have key : ∀ l : List Char,
      stripHtmlAux (stripHtmlAux l.length l).length (stripHtmlAux l.length l) =
        stripHtmlAux l.length l :=
    fun l => stripHtmlAux_of_noTagStart _ (noTagStart_stripHtmlAux l.length l (le_refl _))
  have idem : ∀ s : String, stripHtmlTags (stripHtmlTags s) = stripHtmlTags s :=
    fun s => congrArg String.mk (key s.toList)
  exact ⟨idem, fun m => ⟨rfl, idem m.line⟩⟩

/-! ### C9: stopping the stream preserves the buffer -/

/-- C9: `stopConsoleStream` invokes `close()` exactly when a socket is
present, clears the socket field, and leaves the console buffer unchanged,
so every subsequent buffered read returns exactly what it would have
returned before the stop. -/
theorem c9_stop_preserves_buffer (st : ApiState) :
    (stopConsoleStream st).1.consoleBuffer = st.consoleBuffer ∧
    (stopConsoleStream st).1.consoleSocket = none ∧
    (stopConsoleStream st).2 = st.consoleSocket.isSome ∧
    ∀ (limit : Int) (since : Option Nat),
      getBufferedConsoleMessages (stopConsoleStream st).1.consoleBuffer limit since =
        getBufferedConsoleMessages st.consoleBuffer limit since :=
  ⟨rfl, rfl, rfl, fun _ _ => rfl⟩

/-! ### C2: the console buffer bound -/

theorem jsSliceLast_pos {n : Nat} (hn : n ≠ 0) (l : List α) :
    jsSliceLast n l = l.drop (l.length - n) := by
  simp [jsSliceLast, hn]

theorem pushMessage_eq_drop {B : Nat} (hB : 0 < B) (buf : List ConsoleMessage)
    (m : IncomingLine) :
    pushMessage B buf m = (buf ++ [mkEntry m]).drop (buf.length + 1 - B) := by
  simp only [pushMessage]
  by_cases h : B < (buf ++ [mkEntry m]).length
  · rw [if_pos h, jsSliceLast_pos (Nat.pos_iff_ne_zero.mp hB)]
    simp
  · rw [if_neg h]
    simp only [List.length_append, List.length_cons, List.length_nil] at h
    have h0 : buf.length + 1 - B = 0 := by omega
    simp [h0]

theorem admitMessages_eq_drop {B : Nat} (hB : 0 < B) :
    ∀ (msgs : List IncomingLine) (buf : List ConsoleMessage), buf.length ≤ B →
      admitMessages B buf msgs =
        (buf ++ msgs.map mkEntry).drop ((buf ++ msgs.map mkEntry).length - B) := by
  intro msgs
  induction msgs with
  | nil =>
    intro buf hlen
    have h0 : buf.length - B = 0 := by omega
    simp [admitMessages, h0]
  | cons m ms ih =>
    intro buf hlen
    have hstep := pushMessage_eq_drop hB buf m
    have hlen2 : (pushMessage B buf m).length ≤ B := by
      rw [hstep]
      simp only [List.length_drop, List.length_append, List.length_cons, List.length_nil]
      omega
    have hrec := ih (pushMessage B buf m) hlen2
    have hfold : admitMessages B buf (m :: ms) = admitMessages B (pushMessage B buf m) ms := by
      simp [admitMessages]
    rw [hfold, hrec, hstep]
    have hd : buf.length + 1 - B ≤ (buf ++ [mkEntry m]).length := by
      simp only [List.length_append, List.length_cons, List.length_nil]
      omega
    rw [← List.drop_append_of_le_length hd, List.drop_drop]
    rw [List.map_cons, List.append_cons buf (mkEntry m) (List.map mkEntry ms)]
    congr 1
    simp only [List.length_drop, List.length_append, List.length_cons, List.length_nil,
      List.length_map]
    omega

/-- C2: admitting `N` console messages into an empty buffer with bound `B`
leaves exactly `min N B` messages, namely the `B` most recently admitted
entries in arrival order, and after every admission prefix the buffer
length never exceeds `B`. -/
theorem c2_buffer_bound (msgs : List IncomingLine) (B : Nat) (hB : 0 < B) :
    (admitMessages B [] msgs).length = min msgs.length B ∧
    admitMessages B [] msgs = (msgs.map mkEntry).drop (msgs.length - B) ∧
    ∀ p q : List IncomingLine, msgs = p ++ q →
      (admitMessages B [] p).length ≤ B := by
  have main := admitMessages_eq_drop hB msgs [] (by simp)
  simp only [List.nil_append, List.length_map] at main
  refine ⟨?_, main, ?_⟩
  · rw [main]; simp; omega
  · intro p q _
    have hp := admitMessages_eq_drop hB p [] (by simp)
    simp only [List.nil_append, List.length_map] at hp
    rw [hp]; simp; omega

/-- Witness for C2 at the spec's scenario: bound 3, lines A,B,C,D; the
buffer ends up holding the entries for B,C,D. -/
theorem c2_buffer_bound_witness :
    0 < 3 ∧
    ((admitMessages 3 [] msgsABCD).length = min msgsABCD.length 3 ∧
     admitMessages 3 [] msgsABCD = (msgsABCD.map mkEntry).drop (msgsABCD.length - 3) ∧
     ∀ p q : List IncomingLine, msgsABCD = p ++ q →
       (admitMessages 3 [] p).length ≤ 3) :=
  ⟨by decide, c2_buffer_bound msgsABCD 3 (by decide)⟩

/-! ### C3: buffered reads respect `limit` and `since` -/

/-- C3: a buffered read returns at most `limit` messages; when `since` is
given every returned message is strictly newer than `since`; and the
result is exactly the `limit`-element tail of the `since`-eligible
messages (filter before limit). -/
theorem c3_buffered_read (buf : List ConsoleMessage) (limit : Int)
    (since : Option Nat) (hl : 0 < limit) :
    (getBufferedConsoleMessages buf limit since).length ≤ limit.toNat ∧
    (∀ s, since = some s → ∀ m ∈ getBufferedConsoleMessages buf limit since,
        s < m.timestamp.getD 0) ∧
    getBufferedConsoleMessages buf limit since =
      jsSliceLast limit.toNat (eligibleMessages buf since) := by
  have hnz : limit.toNat ≠ 0 := by omega
  have hdef : getBufferedConsoleMessages buf limit since =
      jsSliceLast limit.toNat (eligibleMessages buf since) := by
    simp [getBufferedConsoleMessages, hl]
  refine ⟨?_, ?_, hdef⟩
  · rw [hdef, jsSliceLast_pos hnz]
    simp
    omega
  · intro s hs m hm
    rw [hdef, jsSliceLast_pos hnz] at hm
    have hm2 : m ∈ eligibleMessages buf since := List.drop_subset _ _ hm
    rw [hs] at hm2
    simp only [eligibleMessages, List.mem_filter, decide_eq_true_eq] at hm2
    exact hm2.2

/-- Witness for C3: buffer with timestamps 2 and 5, `limit = 1`,
`since = 1`. -/
theorem c3_buffered_read_witness :
    (0 : Int) < 1 ∧
    ((getBufferedConsoleMessages bufAB 1 (some 1)).length ≤ (1 : Int).toNat ∧
     (∀ s, (some 1 : Option Nat) = some s →
        ∀ m ∈ getBufferedConsoleMessages bufAB 1 (some 1), s < m.timestamp.getD 0) ∧
     getBufferedConsoleMessages bufAB 1 (some 1) =
       jsSliceLast (1 : Int).toNat (eligibleMessages bufAB (some 1))) :=
  ⟨by decide, c3_buffered_read bufAB 1 (some 1) (by decide)⟩

/-! ### C5: sliding-window admission -/

theorem ensureKey_getD (m : String → Option (List Int)) (k k2 : String) :
    ((ensureKey m k) k2).getD [] = (m k2).getD [] := by
  unfold ensureKey
  cases h : m k with
  | some v => simp [h]
  | none =>
    simp only [h, Option.isSome_none, Bool.false_eq_true, if_false]
    by_cases hk : k2 = k
    · subst hk; simp [h]
    · simp [hk]

theorem validRequestsOf_eq (rl : RateLimiter) (k : String) (now : Int) :
    validRequestsOf rl k now =
      ((rl.requests k).getD []).filter (fun t => now - rl.windowMs < t) := by
  unfold validRequestsOf
  rw [ensureKey_getD]

theorem length_filter_lt_of_exists {p : Int → Bool} {l : List Int}
    (h : ∃ t ∈ l, p t = false) : (l.filter p).length < l.length := by
  induction l with
  | nil => simp at h
  | cons a rest ih =>
    obtain ⟨t, ht, hpt⟩ := h
    by_cases hpa : p a
    · rcases List.mem_cons.mp ht with h1 | h1
      · subst h1; rw [hpa] at hpt; cases hpt
      · simp only [List.filter_cons, hpa, if_true, List.length_cons]
        exact Nat.succ_lt_succ (ih ⟨t, h1, hpt⟩)
    · simp only [List.filter_cons, hpa, if_false, List.length_cons,
        Bool.false_eq_true]
      have := List.length_filter_le p rest
      omega

/-- C5: once `maxRequests` admitted timestamps for a key lie inside the
trailing window at `now`, the next `allowRequest` at `now` returns `false`
and leaves the limiter state completely unchanged (no timestamp recorded);
and at any time `now2` by which the window has passed some admitted
timestamp of a full key, `allowRequest` returns `true` again. -/
theorem c5_rate_limiter (rl : RateLimiter) (key : String) (l : List Int)
    (now now2 : Int)
    (hget : rl.requests key = some l)
    (hfull : rl.maxRequests ≤ (l.filter (fun t => now - rl.windowMs < t)).length)
    (hlen : l.length = rl.maxRequests)
    (hexp : ∃ t ∈ l, t ≤ now2 - rl.windowMs) :
    allowRequest rl key now = (false, rl) ∧
    (allowRequest rl key now2).1 = true := by
  have hvalid : ∀ t, validRequestsOf rl key t =
      l.filter (fun x => t - rl.windowMs < x) := by
    intro t
    rw [validRequestsOf_eq, hget]
    rfl
  have hek : ensureKey rl.requests key = rl.requests := by
    unfold ensureKey
    simp [hget]
  constructor
  · unfold allowRequest
    rw [hvalid now, if_pos hfull, hek]
  · have hlt : (l.filter (fun x => now2 - rl.windowMs < x)).length < rl.maxRequests := by
      rw [← hlen]
      apply length_filter_lt_of_exists
      obtain ⟨t, ht, hle⟩ := hexp
      exact ⟨t, ht, by simp; omega⟩
    unfold allowRequest
    rw [hvalid now2, if_neg (by omega)]

/-- Witness for C5: window 10, max 2, key `k` holding timestamps 1 and 2;
at time 5 the call is rejected without a state change, at time 11 (window
past the oldest timestamp 1) it is admitted again. -/
theorem c5_rate_limiter_witness :
    rlTwo.requests "k" = some [1, 2] ∧
    rlTwo.maxRequests ≤
      (([1, 2] : List Int).filter (fun t => (5 : Int) - rlTwo.windowMs < t)).length ∧
    ([1, 2] : List Int).length = rlTwo.maxRequests ∧
    (∃ t ∈ ([1, 2] : List Int), t ≤ (11 : Int) - rlTwo.windowMs) ∧
    (allowRequest rlTwo "k" 5 = (false, rlTwo) ∧
     (allowRequest rlTwo "k" 11).1 = true) :=
  ⟨by decide, by decide, by decide, ⟨1, by decide, by decide⟩,
   c5_rate_limiter rlTwo "k" [1, 2] 5 11 (by decide) (by decide) (by decide)
     ⟨1, by decide, by decide⟩⟩

/-! ### C10: `cleanup` never changes admission decisions -/

theorem filter_window_twice (l : List Int) (a b : Int) (hab : a ≤ b) :
    (l.filter (fun t => a < t)).filter (fun t => b < t) =
      l.filter (fun t => b < t) := by
  induction l with
  | nil => rfl
  | cons x rest ih =>
    by_cases hax : a < x
    · by_cases hbx : b < x
      · simp [List.filter_cons, hax, hbx, ih]
      · simp [List.filter_cons, hax, hbx, ih]
    · have hbx : ¬ b < x := by omega
      simp [List.filter_cons, hax, hbx, ih]

theorem cleanup_requests_getD (rl : RateLimiter) (tc : Int) (k : String) :
    ((cleanup rl tc).requests k).getD [] =
      ((rl.requests k).getD []).filter (fun t => tc - rl.windowMs < t) := by
  unfold cleanup
  cases h : rl.requests k with
  | none => simp [h]
  | some times =>
    simp only [h]
    by_cases hz : (times.filter (fun t => tc - rl.windowMs < t)).length = 0
    · simp only [hz, if_true, Option.getD_none, Option.getD_some]
      exact (List.length_eq_zero.mp hz).symm
    · simp [hz]

theorem allowRequest_fields (rl : RateLimiter) (k : String) (t : Int) :
    (allowRequest rl k t).2.windowMs = rl.windowMs ∧
    (allowRequest rl k t).2.maxRequests = rl.maxRequests := by
  unfold allowRequest
  by_cases h : rl.maxRequests ≤ (validRequestsOf rl k t).length <;> simp [h]

theorem allowRequest_congr {W : Int} {M : Nat} {m1 m2 : String → Option (List Int)}
    {τ now : Int} (hfe : FilterEq W τ m1 m2) (hτ : τ ≤ now) (k : String) :
    (allowRequest ⟨W, M, m1⟩ k now).1 = (allowRequest ⟨W, M, m2⟩ k now).1 ∧
    FilterEq W now (allowRequest ⟨W, M, m1⟩ k now).2.requests
      (allowRequest ⟨W, M, m2⟩ k now).2.requests := by
  have hval : validRequestsOf ⟨W, M, m1⟩ k now = validRequestsOf ⟨W, M, m2⟩ k now := by
    rw [validRequestsOf_eq, validRequestsOf_eq]
    exact hfe k now hτ
  have hkeep : ∀ (m1' m2' : String → Option (List Int)), FilterEq W τ m1' m2' →
      FilterEq W now (ensureKey m1' k) (ensureKey m2' k) := by
    intro m1' m2' hfe' k2 now2 h2
    rw [ensureKey_getD, ensureKey_getD]
    exact hfe' k2 now2 (le_trans hτ h2)
  unfold allowRequest
  by_cases h : M ≤ (validRequestsOf ⟨W, M, m1⟩ k now).length
  · rw [if_pos h, if_pos (hval ▸ h)]
    exact ⟨rfl, hkeep m1 m2 hfe⟩
  · rw [if_neg h, if_neg (hval ▸ h)]
    refine ⟨rfl, ?_⟩
    intro k2 now2 h2
    by_cases hk : k2 = k
    · subst hk
      simp
      rw [hval]
    · simp only [if_neg hk]
      rw [ensureKey_getD, ensureKey_getD]
      exact hfe k2 now2 (le_trans hτ h2)

theorem runOps_cleanup_invariant {W : Int} {M : Nat} :
    ∀ (ops : List LimiterOp) (τ : Int) (m1 m2 : String → Option (List Int)),
      FilterEq W τ m1 m2 →
      List.Chain' (· ≤ ·) (τ :: ops.map opTime) →
      runOps ⟨W, M, m1⟩ ops = runOps ⟨W, M, m2⟩ (dropCleanups ops) := by
  intro ops
  induction ops with
  | nil => intro τ m1 m2 _ _; rfl
  | cons op rest ih =>
    intro τ m1 m2 hfe hchain
    cases op with
    | allow k t =>
      rw [List.map_cons] at hchain
      have hτt : τ ≤ t := (List.chain'_cons.mp hchain).1
      have hchain2 := (List.chain'_cons.mp hchain).2
      obtain ⟨hdec, hst⟩ := allowRequest_congr (M := M) hfe hτt k
      have f1 := allowRequest_fields ⟨W, M, m1⟩ k t
      have f2 := allowRequest_fields ⟨W, M, m2⟩ k t
      have e1 : (allowRequest ⟨W, M, m1⟩ k t).2 =
          ⟨W, M, (allowRequest ⟨W, M, m1⟩ k t).2.requests⟩ := by
        conv_lhs => rw [show (allowRequest ⟨W, M, m1⟩ k t).2 =
          ⟨(allowRequest ⟨W, M, m1⟩ k t).2.windowMs,
           (allowRequest ⟨W, M, m1⟩ k t).2.maxRequests,
           (allowRequest ⟨W, M, m1⟩ k t).2.requests⟩ from rfl]
        rw [f1.1, f1.2]
      have e2 : (allowRequest ⟨W, M, m2⟩ k t).2 =
          ⟨W, M, (allowRequest ⟨W, M, m2⟩ k t).2.requests⟩ := by
        conv_lhs => rw [show (allowRequest ⟨W, M, m2⟩ k t).2 =
          ⟨(allowRequest ⟨W, M, m2⟩ k t).2.windowMs,
           (allowRequest ⟨W, M, m2⟩ k t).2.maxRequests,
           (allowRequest ⟨W, M, m2⟩ k t).2.requests⟩ from rfl]
        rw [f2.1, f2.2]
      have hrest := ih t _ _ hst hchain2
      simp only [runOps, dropCleanups]
      rw [hdec, e1, e2, hrest]
    | cleanupAt t =>
      rw [List.map_cons] at hchain
      have hτt : τ ≤ t := (List.chain'_cons.mp hchain).1
      have hchain2 := (List.chain'_cons.mp hchain).2
      have hfe2 : FilterEq W t (cleanup ⟨W, M, m1⟩ t).requests m2 := by
        intro k2 now2 h2
        rw [cleanup_requests_getD]
        rw [filter_window_twice _ _ _ (by omega : (t : Int) - W ≤ now2 - W)]
        exact hfe k2 now2 (le_trans hτt h2)
      have hrest := ih t ((cleanup ⟨W, M, m1⟩ t).requests) m2 hfe2 hchain2
      simp only [runOps, dropCleanups]
      exact hrest

/-- C10: `cleanup` is observationally a no-op for admission decisions —
for any limiter state and any trace of `allowRequest` and `cleanup` calls
at non-decreasing times, removing the `cleanup` calls leaves every
`allowRequest` boolean result unchanged. -/
theorem c10_cleanup_transparent (rl : RateLimiter) (ops : List LimiterOp)
    (hchain : List.Chain' (· ≤ ·) (ops.map opTime)) :
    runOps rl ops = runOps rl (dropCleanups ops) := by
  cases ops with
  | nil => rfl
  | cons op rest =>
    have hchain2 : List.Chain' (· ≤ ·)
        (opTime op :: ((op :: rest).map opTime)) := by
      rw [List.map_cons]
      rw [List.map_cons] at hchain
      exact List.chain'_cons.mpr ⟨le_refl _, hchain⟩
    have hfe : FilterEq rl.windowMs (opTime op) rl.requests rl.requests :=
      fun _ _ _ => rfl
    exact runOps_cleanup_invariant (M := rl.maxRequests) (op :: rest)
      (opTime op) rl.requests rl.requests hfe hchain2

/-- Witness for C10: a concrete interleaved trace on a fresh limiter. -/
theorem c10_cleanup_transparent_witness :
    List.Chain' (· ≤ ·) (opsMixed.map opTime) ∧
    runOps rlFresh opsMixed = runOps rlFresh (dropCleanups opsMixed) :=
  ⟨by simp [opsMixed, opTime, List.chain'_cons],
   c10_cleanup_transparent rlFresh opsMixed
     (by simp [opsMixed, opTime, List.chain'_cons])⟩

/-! ### C7: validation gates tool calls -/

/-- C7: a `screeps_room_objects` call whose `roomName` fails the
`^[EW]\d+[NS]\d+$` pattern, and a `screeps_memory_segment_get` call whose
`segment` lies outside `[0, 99]`, each return a validation-error result
with `isError = true`, and no Connection Client operation is invoked. -/
theorem c7_validation_gate (roomName : String) (segment : Int)
    (hr : roomNameMatches roomName = false)
    (hs : segmentValid segment = false) :
    (handleRoomObjects roomName).isError = true ∧
    (handleRoomObjects roomName).apiCalls = [] ∧
    (handleMemorySegmentGet segment).isError = true ∧
    (handleMemorySegmentGet segment).apiCalls = [] := by
  simp [handleRoomObjects, handleMemorySegmentGet, hr, hs]

/-- Witness for C7 at the spec's scenario inputs `roomName = "invalid"`
and `segment = 150`. -/
theorem c7_validation_gate_witness :
    roomNameMatches "invalid" = false ∧
    segmentValid 150 = false ∧
    ((handleRoomObjects "invalid").isError = true ∧
     (handleRoomObjects "invalid").apiCalls = [] ∧
     (handleMemorySegmentGet 150).isError = true ∧
     (handleMemorySegmentGet 150).apiCalls = []) :=
  ⟨by decide, by decide, c7_validation_gate "invalid" 150 (by decide) (by decide)⟩

/-! ### C6: the credential exchange -/

/-- Counterexample to C6: with no token configured and the (non-official)
host `example.com`, the exchange `authenticate` performs is a plain JSON
POST to `/api/auth/signin` carrying no `Authorization` header at all — not
a basic-auth call to the dedicated auth-token endpoint, and no restricted
capability set is requested. -/
theorem c6_auth_exchange_counterexample :
    authExchangeRequest
        { host := "example.com", secure := true, username := some "alice",
          password := some "pw", token := none, shard := "shard0" } =
      .ok (some (signinRequest "alice" "pw")) ∧
    (signinRequest "alice" "pw").path = "/api/auth/signin" ∧
    ((signinRequest "alice" "pw").headers.all
      (fun h => h.1 ≠ "Authorization")) = true :=
  ⟨rfl, rfl, by decide⟩

/-- C6 (amended): when no token credential is configured (nonempty
username and password present), only the official hosts `screeps.com` and
`screeps.com/ptr` exchange credentials via the dedicated
`/api/user/auth-token` endpoint with HTTP basic auth on the exchange call;
that exchange requests an `authtype` descriptor whose `type` field is
`"full"` (a full-type token with the optional endpoint/websocket flags set
to false), not a restricted capability set.  Every other host exchanges
credentials via a JSON POST to `/api/auth/signin` without basic auth. -/
theorem c6_auth_exchange (cfg : ConnectionConfig) (u p : String)
    (htoken : cfg.token = none) (hu : cfg.username = some u)
    (hp : cfg.password = some p) (hune : u ≠ "") (hpne : p ≠ "") :
    authExchangeRequest cfg =
      .ok (some (if cfg.host = "screeps.com" ∨ cfg.host = "screeps.com/ptr"
        then generateAuthTokenRequest u p else signinRequest u p)) ∧
    (generateAuthTokenRequest u p).path = "/api/user/auth-token" ∧
    ("Authorization", "Basic " ++ base64Encode (u ++ ":" ++ p)) ∈
      (generateAuthTokenRequest u p).headers ∧
    (generateAuthTokenRequest u p).body = some authtypeJson ∧
    jsonGetField authtypeJson "type" = some (.str "full") ∧
    ((signinRequest u p).headers.all (fun h => h.1 ≠ "Authorization")) = true := by
  refine ⟨?_, rfl, by simp [generateAuthTokenRequest], rfl, rfl,
    by simp [signinRequest]⟩
  unfold authExchangeRequest
  rw [htoken, hu, hp]
  simp only [Option.isSome_none, Bool.false_eq_true, if_false]
  rw [if_neg (by simp [hune, hpne])]
  by_cases hh : cfg.host = "screeps.com" ∨ cfg.host = "screeps.com/ptr"
  · rw [if_pos hh, if_pos hh]
  · rw [if_neg hh, if_neg hh]

/-- Witness for C6 (amended) at the official host. -/
theorem c6_auth_exchange_witness :
    authExchangeRequest
        { host := "screeps.com", secure := true, username := some "alice",
          password := some "pw", token := none, shard := "shard0" } =
      .ok (some (if ("screeps.com" : String) = "screeps.com" ∨
            ("screeps.com" : String) = "screeps.com/ptr"
        then generateAuthTokenRequest "alice" "pw"
        else signinRequest "alice" "pw")) ∧
    (generateAuthTokenRequest "alice" "pw").path = "/api/user/auth-token" ∧
    ("Authorization", "Basic " ++ base64Encode ("alice" ++ ":" ++ "pw")) ∈
      (generateAuthTokenRequest "alice" "pw").headers ∧
    (generateAuthTokenRequest "alice" "pw").body = some authtypeJson ∧
    jsonGetField authtypeJson "type" = some (.str "full") ∧
    ((signinRequest "alice" "pw").headers.all
      (fun h => h.1 ≠ "Authorization")) = true :=
  c6_auth_exchange
    { host := "screeps.com", secure := true, username := some "alice",
      password := some "pw", token := none, shard := "shard0" }
    "alice" "pw" rfl rfl rfl (by decide) (by decide)

/-! ### C1: gz frame decoding -/

set_option maxRecDepth 1000000 in
/-- Counterexample to C1: the scenario frame built exactly as the claim
states — `gz` immediately followed by `base64(deflate(json))`, i.e. only
the 2-character `gz` prefix before the payload — is not decoded:
`parseSocketMessage` takes `message.substring(3)`, which here loses the
first base64 character, the zlib header check fails, the frame is
discarded, and nothing is buffered (the claim demands exactly one buffered
ConsoleMessage with line `"hi"`).  The last conjunct records that the
2-character strip the claim describes differs from the 3-character strip
the code performs on this frame. -/
theorem c1_gz_frame_counterexample :
    (handleConsoleSocketPayload stOpen 1000 frameGzNoSep).consoleBuffer = [] ∧
    parseSocketMessage frameGzNoSep = .error "incorrect header check" ∧
    frameGzNoSep.toList.drop 2 ≠ frameGzNoSep.toList.drop 3 := by
  refine ⟨by decide, ?_, by decide⟩
  rfl

set_option maxRecDepth 1000000 in
/-- C1 (amended): an incoming console-stream frame whose text begins with
`gz` is decoded by stripping the 3-character prefix (`gz` plus the
separator byte — frames are `gz:<base64>`), base64-decoding the remainder,
DEFLATE-decompressing it, and parsing the result as JSON; feeding the
frame `gz:` + base64(deflate(json)) whose json payload carries
`log:["<b>hi</b>"]` and shard `shard1` buffers exactly one ConsoleMessage
with `line = "hi"` (HTML stripped), kind `log`, that shard and the arrival
timestamp. -/
theorem c1_gz_frame_decoding :
    (handleConsoleSocketPayload stOpen 1000 frameGzSep).consoleBuffer = [msgHi] := by
  decide

/-! ### C4: starting the console stream -/

/-- Counterexample to C4: with a socket already open and subscribed on
`shard0`, a `startConsoleStream` call for the different shard `shard1`
opens no new socket and sends no frames — it only records the new shard
and returns — whereas the claim requires a fresh open/auth/subscribe
handshake whenever the active shard differs. -/
theorem c4_start_stream_counterexample :
    (startConsoleStream stOpen (some "shard1") none (.ok ("tk", "uid"))
        [.socketOpen, .message "auth ok"] 0).openedSocket = false ∧
    (startConsoleStream stOpen (some "shard1") none (.ok ("tk", "uid"))
        [.socketOpen, .message "auth ok"] 0).sentFrames = [] ∧
    (startConsoleStream stOpen (some "shard1") none (.ok ("tk", "uid"))
        [.socketOpen, .message "auth ok"] 0).state.consoleShard = some "shard1" ∧
    (startConsoleStream stOpen (some "shard1") none (.ok ("tk", "uid"))
        [.socketOpen, .message "auth ok"] 0).ok = true :=
  ⟨rfl, rfl, rfl, rfl⟩

/-- C4 (amended): for an authenticated client, `startConsoleStream` is a
no-op whenever the existing socket is open — regardless of the requested
shard — opening no second socket and sending nothing (it only updates the
buffer bound and records the requested shard); when no open socket exists,
the call opens a socket and, over the handshake events `open` then an
`auth ok` reply, sends exactly `auth <token>` followed by
`subscribe user:<userId>/console`, completes successfully, and leaves the
socket open with the buffer unchanged. -/
theorem c4_start_stream (cs : String) (tk uid : String)
    (sock : Option ReadyState) (cshard : Option String) (mb : Nat)
    (buf : List ConsoleMessage) (shard? : Option String)
    (bufferSize? : Option Int) (auth : Except String (String × String))
    (now : Nat) :
    (sock = some .opened →
      (startConsoleStream ⟨cs, some tk, some uid, sock, cshard, mb, buf⟩
          shard? bufferSize? auth [] now).ok = true ∧
      (startConsoleStream ⟨cs, some tk, some uid, sock, cshard, mb, buf⟩
          shard? bufferSize? auth [] now).openedSocket = false ∧
      (startConsoleStream ⟨cs, some tk, some uid, sock, cshard, mb, buf⟩
          shard? bufferSize? auth [] now).sentFrames = [] ∧
      (startConsoleStream ⟨cs, some tk, some uid, sock, cshard, mb, buf⟩
          shard? bufferSize? auth [] now).state.consoleSocket = sock ∧
      (startConsoleStream ⟨cs, some tk, some uid, sock, cshard, mb, buf⟩
          shard? bufferSize? auth [] now).state.consoleBuffer = buf ∧
      (startConsoleStream ⟨cs, some tk, some uid, sock, cshard, mb, buf⟩
          shard? bufferSize? auth [] now).state.consoleShard =
        some (shard?.getD cs)) ∧
    (sock ≠ some .opened →
      (startConsoleStream ⟨cs, some tk, some uid, sock, cshard, mb, buf⟩
          shard? bufferSize? auth [.socketOpen, .message "auth ok"] now).ok = true ∧
      (startConsoleStream ⟨cs, some tk, some uid, sock, cshard, mb, buf⟩
          shard? bufferSize? auth [.socketOpen, .message "auth ok"] now).openedSocket
        = true ∧
      (startConsoleStream ⟨cs, some tk, some uid, sock, cshard, mb, buf⟩
          shard? bufferSize? auth [.socketOpen, .message "auth ok"] now).sentFrames =
        ["auth " ++ tk, "subscribe user:" ++ uid ++ "/console"] ∧
      (startConsoleStream ⟨cs, some tk, some uid, sock, cshard, mb, buf⟩
          shard? bufferSize? auth
          [.socketOpen, .message "auth ok"] now).state.consoleSocket =
        some .opened ∧
      (startConsoleStream ⟨cs, some tk, some uid, sock, cshard, mb, buf⟩
          shard? bufferSize? auth
          [.socketOpen, .message "auth ok"] now).state.consoleBuffer = buf) := by
  have hok : strStartsWith "auth ok" "auth ok" = true := by decide
  constructor
  · intro hopen
    subst hopen
    cases bufferSize? with
    | none => simp [startConsoleStream, ensureAuth]
    | some b =>
      by_cases hb : 0 < b <;>
        simp [startConsoleStream, ensureAuth, hb]
  · intro hclosed
    cases bufferSize? with
    | none =>
      simp [startConsoleStream, ensureAuth, hclosed, runHandshake, hok]
    | some b =>
      by_cases hb : 0 < b <;>
        simp [startConsoleStream, ensureAuth, hclosed, runHandshake, hok, hb]

/-- Witness for C4 (amended): the open-socket state `stOpen` exercises the
no-op branch; the socketless state `stNoSocket` exercises the full
handshake branch. -/
theorem c4_start_stream_witness :
    stOpen.token = some "tk" ∧ stOpen.userId = some "uid" ∧
    stNoSocket.consoleSocket ≠ some ReadyState.opened ∧
    ((startConsoleStream stOpen (some "shard1") none (.ok ("tk", "uid")) [] 0).openedSocket
        = false ∧
     (startConsoleStream stNoSocket none none (.ok ("tk", "uid"))
        [.socketOpen, .message "auth ok"] 0).sentFrames =
       ["auth " ++ "tk", "subscribe user:" ++ "uid" ++ "/console"]) := by
  refine ⟨rfl, rfl, by decide, ?_, ?_⟩
  · exact ((c4_start_stream "shard0" "tk" "uid" (some .opened) (some "shard0") 500 []
      (some "shard1") none (.ok ("tk", "uid")) 0).1 rfl).2.1
  · exact ((c4_start_stream "shard0" "tk" "uid" none (some "shard0") 500 []
      none none (.ok ("tk", "uid")) 0).2 (by decide)).2.2.1

end Screeps
